import Mathlib

/-!
Shallow embedding of `ultralytics/yolo/v8/pose/train.py` (classes
`PoseTrainer` and `PoseLoss`).  Tensor values are modelled over `ℚ`;
tensors are total functions on `Fin`-indexed shapes.  Components that the
file calls but that live outside this file (the task-aligned assigner,
`nn.BCEWithLogitsLoss`, `Loss.preprocess`, `Loss.bbox_decode`,
`Loss.bbox_loss`, `make_anchors`) are abstract parameters of the
embedding, collected in a context structure: every claim below is about
how this file wires data into and out of them, not about their internals.
`detach` only affects autodiff, so in value semantics it is the identity.
-/

namespace PoseTrain

/-! ## PoseTrainer.__init__  (train.py lines 22-26)

`overrides` is a Python dict (possibly `None`); we model a dict as a
partial map `String → Option String`.  The constructor replaces a `None`
argument with the empty dict, sets `overrides['task'] = 'pose'` and passes
the result to the superclass constructor; the embedding returns the dict
handed to `super().__init__`. -/

/-- A Python dict of overrides, as a partial map. -/
def Dict : Type := String → Option String

/-- The empty dict `\x7b\x7d`. -/
def Dict.empty : Dict := fun _ => none

/-- Dict item assignment `d[k] = v`. -/
def Dict.set (d : Dict) (k v : String) : Dict :=
  fun k' => if k' = k then some v else d k'

/-- The constructor `PoseTrainer.__init__`: the overrides dict that reaches
`super().__init__` (train.py lines 22-26). -/
def poseTrainerInit (overrides : Option Dict) : Dict :=
  let o := match overrides with
    | none => Dict.empty
    | some d => d
  o.set "task" "pose"

/-! ## PoseTrainer.get_model  (train.py lines 28-33) -/

/-- Arguments with which `PoseModel` is constructed. -/
structure PoseModelArgs where
  cfg : Option String
  ch : ℕ
  nc : ℕ
  nkpt : ℕ
  verbose : Bool
  deriving DecidableEq

/-- A constructed model: its constructor arguments plus the weights
loaded into it by `model.load`, if any. -/
structure ModelState where
  args : PoseModelArgs
  loadedWeights : Option String
  deriving DecidableEq

/-- Constructing `PoseModel(cfg, ch, nc, nkpt, verbose)`: a freshly constructed model,
with no weights loaded. -/
def PoseModel (cfg : Option String) (ch nc nkpt : ℕ) (verbose : Bool) :
    ModelState :=
  ⟨⟨cfg, ch, nc, nkpt, verbose⟩, none⟩

/-- Loading weights, `model.load(weights)`. -/
def ModelState.load (m : ModelState) (w : String) : ModelState :=
  { m with loadedWeights := some w }

/-- Python truthiness of the `weights` argument: `None` and the empty
string are falsy. -/
def truthy : Option String → Bool
  | none => false
  | some s => !s.isEmpty

/-- The `nc` / `nkpt` entries of the trainer's dataset configuration
`self.data`. -/
structure TrainerData where
  nc : ℕ
  nkpt : ℕ

/-- The method `PoseTrainer.get_model` (train.py lines 28-33): construct a
`PoseModel` with `ch=3`, `nc=self.data['nc']`, `nkpt=self.data['nkpt']`,
then load `weights` into it when `weights` is truthy. -/
def get_model (data : TrainerData) (cfg : Option String)
    (weights : Option String) (verbose : Bool) : ModelState :=
  let model := PoseModel cfg 3 data.nc data.nkpt verbose
  if truthy weights then model.load (weights.getD "") else model

/-! ## PoseLoss.kpts_decode  (train.py lines 146-157)

The source clones `pred_kpts`, multiplies the x channels (indices
`0 mod 3`) and y channels (indices `1 mod 3`) by 2, then adds the
anchor's x (resp. y) coordinate minus 0.5; visibility channels
(`2 mod 3`) are untouched, and the `bbox` argument is never read.  The
embedding is per anchor row `j` and channel `ch`; `β` is the (unused)
type of `bbox`. -/

def kpts_decode {ι β : Type} {c : ℕ} (anchor_points : ι → ℚ × ℚ)
    (pred_kpts : ι → Fin c → ℚ) (_bbox : β) : ι → Fin c → ℚ :=
  fun j ch =>
    if ch.val % 3 = 0 then 2 * pred_kpts j ch + (anchor_points j).1 - 1/2
    else if ch.val % 3 = 1 then 2 * pred_kpts j ch + (anchor_points j).2 - 1/2
    else pred_kpts j ch

/-! ## PoseLoss.__call__  (train.py lines 72-144)

Shape parameters: `b` batch size, `n` total anchors over all feature
maps, `nc` classes, `dr` distribution channels (`4 * reg_max`), `m` flat
ground-truth rows in the batch, `M` padded per-image ground-truth rows
produced by `preprocess`, `nk` keypoints (`3 * nk` keypoint channels). -/

/-- The tuple returned by `self.assigner(...)` (train.py lines 99-101);
the first returned value (`target_labels`) is bound to `_` in the source
and therefore omitted. -/
structure AssignOut (b n nc M : ℕ) where
  target_bboxes : Fin b → Fin n → Fin 4 → ℚ
  target_scores : Fin b → Fin n → Fin nc → ℚ
  fg_mask : Fin b → Fin n → Bool
  target_gt_idx : Fin b → Fin n → Fin M

/-- The type of `self.assigner` (`TaskAlignedAssigner.__call__`): scores,
decoded boxes, anchor points, ground-truth labels, boxes and validity
mask in, assignment out. -/
def AssignerFn (b n nc M : ℕ) : Type :=
  (Fin b → Fin n → Fin nc → ℚ) → (Fin b → Fin n → Fin 4 → ℚ) →
    (Fin n → ℚ × ℚ) → (Fin b → Fin M → ℚ) → (Fin b → Fin M → Fin 4 → ℚ) →
    (Fin b → Fin M → Bool) → AssignOut b n nc M

/-- External components used by `PoseLoss.__call__` but defined outside
`train.py`: hyperparameter gains (`self.hyp`), `torch.sigmoid`, the
elementwise `nn.BCEWithLogitsLoss(reduction='none')` stored in
`self.bce`, the mean-reduced `nn.BCEWithLogitsLoss()` stored in
`self.bce_pose` (abstract on the compressed per-image visibility
matrices), the per-keypoint contribution and mask-count factor of
`KeypointLoss` (see `keypoint_loss` below), `Loss.preprocess`,
`Loss.bbox_decode`, the task-aligned `self.assigner`, and
`self.bbox_loss`. -/
structure Ctx (b n nc dr m M nk : ℕ) where
  hyp_box : ℚ
  hyp_cls : ℚ
  hyp_dfl : ℚ
  sigmoid : ℚ → ℚ
  bce : ℚ → ℚ → ℚ
  bce_pose : List (Fin nk → ℚ) → List (Fin nk → ℚ) → ℚ
  kptElem : ℚ → ℚ → ℚ → ℚ → ℚ → ℚ
  kptFactor : List (Fin nk → Bool) → ℚ
  preprocess : (Fin m → Fin 6 → ℚ) → (ℚ × ℚ × ℚ × ℚ) →
    Fin b → Fin M → Fin 5 → ℚ
  bbox_decode : (Fin n → ℚ × ℚ) → (Fin b → Fin n → Fin dr → ℚ) →
    Fin b → Fin n → Fin 4 → ℚ
  assigner : AssignerFn b n nc M
  bbox_loss : (Fin b → Fin n → Fin dr → ℚ) → (Fin b → Fin n → Fin 4 → ℚ) →
    (Fin n → ℚ × ℚ) → (Fin b → Fin n → Fin 4 → ℚ) →
    (Fin b → Fin n → Fin nc → ℚ) → ℚ → (Fin b → Fin n → Bool) → ℚ × ℚ

/-- The prediction-side inputs of `__call__` after the reshape/permute of
train.py lines 74-85: `pred_scores`, `pred_distri`, `pred_kpts` in
`(batch, anchor, channel)` layout, the image size `imgsz` (height,
width) computed from `feats[0].shape[2:] * stride[0]`, and the
`anchor_points` / `stride_tensor` produced by `make_anchors`. -/
structure Preds (b n nc dr nk : ℕ) where
  pred_scores : Fin b → Fin n → Fin nc → ℚ
  pred_distri : Fin b → Fin n → Fin dr → ℚ
  pred_kpts : Fin b → Fin n → Fin (3 * nk) → ℚ
  imgszH : ℚ
  imgszW : ℚ
  anchor_points : Fin n → ℚ × ℚ
  stride_tensor : Fin n → ℚ

/-- The ground-truth side of `__call__`: `batch['batch_idx']`,
`batch['cls']`, `batch['bboxes']`, `batch['keypoints']` (each keypoint
row flattened to `3 * nk` channels, `x, y, visibility` interleaved). -/
structure Batch (b m nk : ℕ) where
  batch_idx : Fin m → Fin b
  cls : Fin m → ℚ
  bboxes : Fin m → Fin 4 → ℚ
  keypoints : Fin m → Fin (3 * nk) → ℚ

/-- x channel of keypoint `k` in a flattened `3 * nk` row. -/
def chX {nk : ℕ} (k : Fin nk) : Fin (3 * nk) :=
  ⟨3 * k.val, by have := k.isLt; omega⟩

/-- y channel of keypoint `k`. -/
def chY {nk : ℕ} (k : Fin nk) : Fin (3 * nk) :=
  ⟨3 * k.val + 1, by have := k.isLt; omega⟩

/-- visibility channel of keypoint `k`. -/
def chV {nk : ℕ} (k : Fin nk) : Fin (3 * nk) :=
  ⟨3 * k.val + 2, by have := k.isLt; omega⟩

/-- Modelled from the spec: `xyxy2xywh` from `ultralytics.yolo.utils.ops`
is imported by train.py but its definition is not part of this file; the
spec describes it only as conversion of corner boxes "to xywh form", so
it is modelled as the standard conversion (center x, center y, width
`x2 - x1`, height `y2 - y1`). -/
def xyxy2xywh (bb : Fin 4 → ℚ) : Fin 4 → ℚ := fun k =>
  if k.val = 0 then (bb 0 + bb 2) / 2
  else if k.val = 1 then (bb 1 + bb 3) / 2
  else if k.val = 2 then bb 2 - bb 0
  else bb 3 - bb 1

/-- Modelled from the spec: `KeypointLoss` from
`ultralytics.yolo.utils.loss` is imported by train.py but its definition
is not part of this file.  The spec describes the keypoint-location loss
as "masked by ground-truth visibility", so it is modelled as a
mask-count-dependent factor times a sum of per-keypoint contributions
`elem px py gx gy area` taken only over mask-true keypoints; both `elem`
and `factor` stay abstract.  The four list arguments are the compressed
per-anchor rows `pred_kpt`, `gt_kpt`, `kpt_mask`, `area` of train.py
line 128.  `kptMaskedSum` is the masked double sum over anchor rows and
keypoints. -/
def kptMaskedSum {nk : ℕ} (elem : ℚ → ℚ → ℚ → ℚ → ℚ → ℚ) :
    List (Fin (3 * nk) → ℚ) → List (Fin (3 * nk) → ℚ) →
    List (Fin nk → Bool) → List ℚ → ℚ
  | p :: ps, g :: gs, mk :: ms, a :: as_ =>
      (∑ k : Fin nk, if mk k then elem (p (chX k)) (p (chY k))
        (g (chX k)) (g (chY k)) a else 0) +
      kptMaskedSum elem ps gs ms as_
  | _, _, _, _ => 0

/-- Modelled from the spec: the `KeypointLoss` call of train.py line 128
itself, a mask-count-dependent factor times the masked sum
`kptMaskedSum`. -/
def keypoint_loss {nk : ℕ} (elem : ℚ → ℚ → ℚ → ℚ → ℚ → ℚ)
    (factor : List (Fin nk → Bool) → ℚ)
    (pred gt : List (Fin (3 * nk) → ℚ)) (mask : List (Fin nk → Bool))
    (ar : List ℚ) : ℚ :=
  factor mask * kptMaskedSum elem pred gt mask ar

section Call

variable {b n nc dr m M nk : ℕ} (C : Ctx b n nc dr m M nk)
  (P : Preds b n nc dr nk) (B : Batch b m nk)

/-- train.py line 90: `targets = torch.cat((batch_idx, batch['cls'],
batch['bboxes']), 1)` — one row of 6 columns per flat ground-truth
object. -/
def flatTargets (B : Batch b m nk) : Fin m → Fin 6 → ℚ := fun t j =>
  if h : j.val = 0 then ((B.batch_idx t : ℕ) : ℚ)
  else if h1 : j.val = 1 then B.cls t
  else B.bboxes t ⟨j.val - 2, by have := j.isLt; omega⟩

/-- train.py line 91: `targets = self.preprocess(targets, batch_size,
scale_tensor=imgsz[[1, 0, 1, 0]])` — the scale tensor is
`(w, h, w, h)`. -/
def preTargets : Fin b → Fin M → Fin 5 → ℚ :=
  C.preprocess (flatTargets B) (P.imgszW, P.imgszH, P.imgszW, P.imgszH)

/-- train.py line 92: `gt_labels` is column 0 of the preprocessed
targets. -/
def gt_labels : Fin b → Fin M → ℚ := fun i t => preTargets C P B i t 0

/-- train.py line 92: `gt_bboxes` is columns 1-4 (xyxy). -/
def gt_bboxes : Fin b → Fin M → Fin 4 → ℚ := fun i t k =>
  preTargets C P B i t ⟨k.val + 1, by have := k.isLt; omega⟩

/-- train.py line 93: `mask_gt = gt_bboxes.sum(2, keepdim=True).gt_(0)`. -/
def mask_gt : Fin b → Fin M → Bool := fun i t =>
  decide (0 < ∑ k : Fin 4, gt_bboxes C P B i t k)

/-- train.py line 96: `pred_bboxes = self.bbox_decode(anchor_points,
pred_distri)`. -/
def pred_bboxes : Fin b → Fin n → Fin 4 → ℚ :=
  C.bbox_decode P.anchor_points P.pred_distri

/-- train.py lines 99-101: the assigner is called with the detached
sigmoided scores, the detached decoded boxes times `stride_tensor`, the
anchor points times `stride_tensor`, and the batch ground truth
(`detach` is the identity in value semantics). -/
def assign : AssignOut b n nc M :=
  C.assigner (fun i j c => C.sigmoid (P.pred_scores i j c))
    (fun i j k => pred_bboxes C P i j k * P.stride_tensor j)
    (fun j => ((P.anchor_points j).1 * P.stride_tensor j,
      (P.anchor_points j).2 * P.stride_tensor j))
    (gt_labels C P B) (gt_bboxes C P B) (mask_gt C P B)

variable (TA : AssignOut b n nc M)

/-- train.py line 103: `target_scores_sum = max(target_scores.sum(), 1)`.
From here on the defs take the assigner output `TA` (the tuple that the
source binds to locals on lines 99-101) as a parameter; `poseCall` below
instantiates `TA := assign C P B`. -/
def target_scores_sum : ℚ :=
  max (∑ i : Fin b, ∑ j : Fin n, ∑ c : Fin nc, TA.target_scores i j c) 1

/-- train.py line 107: the classification loss before its gain,
`self.bce(pred_scores, target_scores).sum() / target_scores_sum`. -/
def clsLossRaw : ℚ :=
  (∑ i : Fin b, ∑ j : Fin n, ∑ c : Fin nc,
    C.bce (P.pred_scores i j c) (TA.target_scores i j c)) /
    target_scores_sum TA

/-- The count `fg_mask.sum()` (train.py line 110) as a natural number. -/
def fgCount : ℕ :=
  ∑ i : Fin b, ∑ j : Fin n, if TA.fg_mask i j then 1 else 0

/-- train.py line 111: `target_bboxes /= stride_tensor` (the value the
branch assigns). -/
def target_bboxes_div : Fin b → Fin n → Fin 4 → ℚ := fun i j k =>
  TA.target_bboxes i j k / P.stride_tensor j

/-- The value of the Python local `target_bboxes` after line 111: it is
divided by `stride_tensor` only inside the `if fg_mask.sum():` branch. -/
def target_bboxes_final : Fin b → Fin n → Fin 4 → ℚ :=
  if fgCount TA ≠ 0 then target_bboxes_div P TA else TA.target_bboxes

/-- train.py lines 112-113: `self.bbox_loss(...)` giving the box and dfl
components before their gains. -/
def bboxLossPair : ℚ × ℚ :=
  C.bbox_loss P.pred_distri (pred_bboxes C P) P.anchor_points
    (target_bboxes_div P TA) TA.target_scores
    (target_scores_sum TA) TA.fg_mask

/-- train.py lines 114-116: the cloned keypoints with x channels scaled
by `imgsz[1]` (width) and y channels by `imgsz[0]` (height). -/
def kptsScaled : Fin m → Fin (3 * nk) → ℚ := fun t c =>
  if c.val % 3 = 0 then B.keypoints t c * P.imgszW
  else if c.val % 3 = 1 then B.keypoints t c * P.imgszH
  else B.keypoints t c

/-- The foreground anchors of image `i`, in index order
(`fg_mask[i]` as a selection). -/
def sel (i : Fin b) : List (Fin n) :=
  (List.finRange n).filter (fun j => TA.fg_mask i j)

/-- The flat ground-truth rows belonging to image `i`, in index order
(`batch_idx.view(-1) == i` as a selection, train.py line 120). -/
def imgTargets (B : Batch b m nk) (i : Fin b) : List (Fin m) :=
  (List.finRange m).filter (fun t => B.batch_idx t = i)

/-- train.py line 120: `gt_kpt = keypoints[batch_idx.view(-1) == i][idx]`
for anchor `j` of image `i` — row `target_gt_idx[i][j]` of image `i`'s
scaled keypoints (0 if the index exceeds the image's object count, a
case the assigner never produces). -/
def gtKptRaw (i : Fin b) (j : Fin n) : Fin (3 * nk) → ℚ := fun c =>
  match (imgTargets B i)[(TA.target_gt_idx i j).val]? with
  | some t => kptsScaled P B t c
  | none => 0

/-- train.py lines 121-122: `gt_kpt[:, 0::3] /= stride_tensor[...]` and
`gt_kpt[:, 1::3] /= ...` — x and y channels divided by the anchor's
stride, visibility channels untouched. -/
def gt_kpt (i : Fin b) (j : Fin n) : Fin (3 * nk) → ℚ := fun c =>
  if c.val % 3 = 2 then gtKptRaw P B TA i j c
  else gtKptRaw P B TA i j c / P.stride_tensor j

/-- train.py line 127: `kpt_mask = gt_kpt[:, 2::3] != 0`. -/
def kpt_mask (i : Fin b) (j : Fin n) : Fin nk → Bool := fun k =>
  decide (gt_kpt P B TA i j (chV k) ≠ 0)

/-- train.py lines 123-124: the per-anchor normalizing area, the product
of the width and height of `xyxy2xywh(target_bboxes[i][fg_mask[i]])`. -/
def area (i : Fin b) (j : Fin n) : ℚ :=
  xyxy2xywh (target_bboxes_div P TA i j) 2 *
    xyxy2xywh (target_bboxes_div P TA i j) 3

/-- train.py line 126: `pred_kpt = self.kpts_decode(anchor_points[...],
pred_kpts[i][...], xywh)`; `kpts_decode` acts anchor-row-wise, so the
compressed call equals the full decode restricted to the selected
rows. -/
def predKptDecoded (i : Fin b) : Fin n → Fin (3 * nk) → ℚ :=
  kpts_decode P.anchor_points (P.pred_kpts i)
    (fun j => xyxy2xywh (target_bboxes_div P TA i j))

/-- train.py line 128 accumulated over the batch loop: the
keypoint-location loss before its gain. -/
def kptLocLossRaw : ℚ :=
  ∑ i : Fin b,
    if (sel TA i).isEmpty then 0
    else keypoint_loss C.kptElem C.kptFactor
      ((sel TA i).map (fun j => predKptDecoded P TA i j))
      ((sel TA i).map (fun j => gt_kpt P B TA i j))
      ((sel TA i).map (fun j => kpt_mask P B TA i j))
      ((sel TA i).map (fun j => area P TA i j))

/-- train.py line 130 accumulated over the batch loop: the
keypoint-visibility loss before its gain,
`self.bce_pose(pred_kpt[:, 2::3], kpt_mask.float())`. -/
def kptVisLossRaw : ℚ :=
  ∑ i : Fin b,
    if (sel TA i).isEmpty then 0
    else C.bce_pose
      ((sel TA i).map (fun j => fun k => predKptDecoded P TA i j (chV k)))
      ((sel TA i).map (fun j => fun k =>
        if kpt_mask P B TA i j k then (1 : ℚ) else 0))

/-- train.py lines 73, 110-142: the five-component loss vector after the
gains of lines 138-142; indices as in the source array: 0 box, 1
keypoint location, 2 keypoint visibility, 3 classification, 4 dfl.
Components 0, 1, 2, 4 stay at their initial 0 when `fg_mask.sum()` is
zero. -/
def lossVec : Fin 5 → ℚ := fun k =>
  if k.val = 0 then
    (if fgCount TA ≠ 0 then (bboxLossPair C P TA).1 else 0) * C.hyp_box
  else if k.val = 1 then
    (if fgCount TA ≠ 0 then kptLocLossRaw C P B TA else 0) *
      (C.hyp_box / (b : ℚ))
  else if k.val = 2 then
    (if fgCount TA ≠ 0 then kptVisLossRaw C P B TA else 0) *
      (C.hyp_box / (b : ℚ))
  else if k.val = 3 then clsLossRaw C P TA * C.hyp_cls
  else (if fgCount TA ≠ 0 then (bboxLossPair C P TA).2 else 0) * C.hyp_dfl

/-- train.py line 144, as a function of the assigner output:
`return loss.sum() * batch_size, loss.detach()`. -/
def poseCallAssigned : ℚ × (Fin 5 → ℚ) :=
  ((∑ k : Fin 5, lossVec C P B TA k) * (b : ℚ), lossVec C P B TA)

/-- The full `PoseLoss.__call__` (train.py lines 72-144): the whole call, with the
locals of lines 99-101 bound to the assigner's output. -/
def poseCall : ℚ × (Fin 5 → ℚ) :=
  poseCallAssigned C P B (assign C P B)

end Call

/-! ## Helper lemmas -/

lemma chX_mod {nk : ℕ} (k : Fin nk) : (chX k).val % 3 = 0 := by
  simp only [chX]; omega

lemma chY_mod {nk : ℕ} (k : Fin nk) : (chY k).val % 3 = 1 := by
  simp only [chY]; omega

lemma chV_mod {nk : ℕ} (k : Fin nk) : (chV k).val % 3 = 2 := by
  simp only [chV]; omega

section Lemmas

variable {b n nc dr m M nk : ℕ} {C : Ctx b n nc dr m M nk}
  {P : Preds b n nc dr nk} {B : Batch b m nk} {TA : AssignOut b n nc M}

lemma kptsScaled_chX (t : Fin m) (k : Fin nk) :
    kptsScaled P B t (chX k) = B.keypoints t (chX k) * P.imgszW := by
  simp [kptsScaled, chX_mod]

lemma kptsScaled_chY (t : Fin m) (k : Fin nk) :
    kptsScaled P B t (chY k) = B.keypoints t (chY k) * P.imgszH := by
  simp [kptsScaled, chY_mod]

lemma kptsScaled_chV (t : Fin m) (k : Fin nk) :
    kptsScaled P B t (chV k) = B.keypoints t (chV k) := by
  simp [kptsScaled, chV_mod]

lemma predKptDecoded_chV (i : Fin b) (j : Fin n) (k : Fin nk) :
    predKptDecoded P TA i j (chV k) = P.pred_kpts i j (chV k) := by
  simp [predKptDecoded, kpts_decode, chV_mod]

lemma gt_kpt_some {i : Fin b} {j : Fin n} {t : Fin m}
    (h : (imgTargets B i)[(TA.target_gt_idx i j).val]? = some t)
    (k : Fin nk) :
    gt_kpt P B TA i j (chX k) =
        B.keypoints t (chX k) * P.imgszW / P.stride_tensor j ∧
    gt_kpt P B TA i j (chY k) =
        B.keypoints t (chY k) * P.imgszH / P.stride_tensor j ∧
    gt_kpt P B TA i j (chV k) = B.keypoints t (chV k) := by
  refine ⟨?_, ?_, ?_⟩ <;>
    simp [gt_kpt, gtKptRaw, h, chX_mod, chY_mod, chV_mod,
      kptsScaled_chX, kptsScaled_chY, kptsScaled_chV]

lemma gt_kpt_none {i : Fin b} {j : Fin n}
    (h : (imgTargets B i)[(TA.target_gt_idx i j).val]? = none)
    (c : Fin (3 * nk)) : gt_kpt P B TA i j c = 0 := by
  simp [gt_kpt, gtKptRaw, h]

lemma kpt_mask_some {i : Fin b} {j : Fin n} {t : Fin m}
    (h : (imgTargets B i)[(TA.target_gt_idx i j).val]? = some t)
    (k : Fin nk) :
    kpt_mask P B TA i j k = decide (B.keypoints t (chV k) ≠ 0) := by
  simp only [kpt_mask, (gt_kpt_some h k).2.2]

lemma kpt_mask_none {i : Fin b} {j : Fin n}
    (h : (imgTargets B i)[(TA.target_gt_idx i j).val]? = none)
    (k : Fin nk) : kpt_mask P B TA i j k = false := by
  simp [kpt_mask, gt_kpt_none h]

end Lemmas

/-- Congruence for the masked keypoint sum over a common anchor list:
the ground-truth rows may be replaced by rows that agree on the x and y
channels of every mask-true keypoint. -/
lemma kptMaskedSum_map_congr {ι : Type} {nk : ℕ}
    (elem : ℚ → ℚ → ℚ → ℚ → ℚ → ℚ) (l : List ι)
    (pm : ι → Fin (3 * nk) → ℚ) (f f' : ι → Fin (3 * nk) → ℚ)
    (mkf : ι → Fin nk → Bool) (af : ι → ℚ)
    (h : ∀ j ∈ l, ∀ k : Fin nk, mkf j k = true →
      f j (chX k) = f' j (chX k) ∧ f j (chY k) = f' j (chY k)) :
    kptMaskedSum elem (l.map pm) (l.map f) (l.map mkf) (l.map af) =
      kptMaskedSum elem (l.map pm) (l.map f') (l.map mkf) (l.map af) := by
  induction l with
  | nil => rfl
  | cons j l ih =>
      simp only [List.map_cons, kptMaskedSum]
      refine congrArg₂ (· + ·) (Finset.sum_congr rfl fun k _ => ?_) ?_
      · by_cases hk : mkf j k = true
        · have hxy := h j (List.mem_cons_self j l) k hk
          rw [hxy.1, hxy.2]
        · simp [hk]
      · exact ih fun j' hj' => h j' (List.mem_cons_of_mem j hj')

/-! ## Claims -/

/-- C7: `PoseLoss.kpts_decode` is pure on its `pred_kpts` argument (the
source clones it, so the embedding is a plain function of it), maps each
x channel to `2 * v + anchor_x - 0.5` and each y channel to
`2 * v + anchor_y - 0.5`, leaves each visibility channel unchanged, and
does not depend on its `bbox` argument. -/
theorem kpts_decode_channelwise {ι β β' : Type} {nk : ℕ}
    (a : ι → ℚ × ℚ) (pk : ι → Fin (3 * nk) → ℚ) (bx : β) (bx' : β')
    (j : ι) (k : Fin nk) :
    kpts_decode a pk bx j (chX k) = 2 * pk j (chX k) + (a j).1 - 1/2 ∧
    kpts_decode a pk bx j (chY k) = 2 * pk j (chY k) + (a j).2 - 1/2 ∧
    kpts_decode a pk bx j (chV k) = pk j (chV k) ∧
    kpts_decode a pk bx = kpts_decode a pk bx' := by
  refine ⟨?_, ?_, ?_, rfl⟩ <;> simp [kpts_decode, chX_mod, chY_mod, chV_mod]

/-- C1: `PoseLoss.__call__` returns a pair whose first element is
`batch_size` times the sum of the returned detached five-component loss
vector, and whose second element is that vector (detach is the identity
on values); the box component is the raw box loss scaled by the box
gain, the two keypoint components are the raw keypoint-location and
keypoint-visibility losses each scaled by the box gain divided by
`batch_size`, the classification component is scaled by the cls gain and
the dfl component by the dfl gain. -/
theorem poseCall_returns_batch_scaled_sum_and_detached_vector
    {b n nc dr m M nk : ℕ} (C : Ctx b n nc dr m M nk)
    (P : Preds b n nc dr nk) (B : Batch b m nk)
    (TA : AssignOut b n nc M) :
    (poseCall C P B).1 = (b : ℚ) * ∑ k : Fin 5, (poseCall C P B).2 k ∧
    (poseCall C P B).2 = lossVec C P B (assign C P B) ∧
    lossVec C P B TA 0 =
      (if fgCount TA ≠ 0 then (bboxLossPair C P TA).1 else 0) *
        C.hyp_box ∧
    lossVec C P B TA 1 =
      (if fgCount TA ≠ 0 then kptLocLossRaw C P B TA else 0) *
        (C.hyp_box / (b : ℚ)) ∧
    lossVec C P B TA 2 =
      (if fgCount TA ≠ 0 then kptVisLossRaw C P B TA else 0) *
        (C.hyp_box / (b : ℚ)) ∧
    lossVec C P B TA 3 = clsLossRaw C P TA * C.hyp_cls ∧
    lossVec C P B TA 4 =
      (if fgCount TA ≠ 0 then (bboxLossPair C P TA).2 else 0) *
        C.hyp_dfl := by
  refine ⟨?_, rfl, rfl, rfl, rfl, rfl, rfl⟩
  exact mul_comm _ _

/-- C3: the classification component (index 3, before its gain) is the
elementwise binary cross-entropy of the permuted predicted scores
against the assigned target scores, summed and divided by the
target-score sum; and the keypoint-visibility component accumulates, per
image with foreground anchors, `bce_pose` applied to the predicted
visibility channels (channel `3k + 2` of the predicted keypoints, which
`kpts_decode` leaves untouched) and the float ground-truth visibility
mask. -/
theorem cls_bce_and_kpt_visibility_bce {b n nc dr m M nk : ℕ}
    (C : Ctx b n nc dr m M nk) (P : Preds b n nc dr nk)
    (B : Batch b m nk) (TA : AssignOut b n nc M) :
    clsLossRaw C P TA =
      (∑ i : Fin b, ∑ j : Fin n, ∑ c : Fin nc,
        C.bce (P.pred_scores i j c) (TA.target_scores i j c)) /
        target_scores_sum TA ∧
    lossVec C P B TA 3 = clsLossRaw C P TA * C.hyp_cls ∧
    kptVisLossRaw C P B TA =
      ∑ i : Fin b,
        if (sel TA i).isEmpty then 0
        else C.bce_pose
          ((sel TA i).map (fun j => fun k => P.pred_kpts i j (chV k)))
          ((sel TA i).map (fun j => fun k =>
            if kpt_mask P B TA i j k then (1 : ℚ) else 0)) := by
  refine ⟨rfl, rfl, ?_⟩
  simp only [kptVisLossRaw]
  refine Finset.sum_congr rfl fun i _ => ?_
  have hvis : (fun j => fun k => predKptDecoded P TA i j (chV k)) =
      (fun j => fun k => P.pred_kpts i j (chV k)) := by
    funext j k
    exact predKptDecoded_chV i j k
  rw [hvis]

/-- C2: the targets feeding every loss component are recomputed on each
call by the assigner from the detached sigmoided predicted scores, the
detached predicted boxes scaled by the stride tensor, the anchor points
scaled by the stride tensor, and the batch's ground-truth labels, boxes
and validity mask: the assigned tuple is exactly `self.assigner` applied
to those inputs, the whole call factors through that tuple, and two
assigners that agree on those inputs yield identical results — nothing
is taken from a static matching. -/
theorem poseCall_targets_dynamic_from_assigner
    {b n nc dr m M nk : ℕ} (C : Ctx b n nc dr m M nk)
    (P : Preds b n nc dr nk) (B : Batch b m nk)
    (A A' : AssignerFn b n nc M)
    (h : A (fun i j c => C.sigmoid (P.pred_scores i j c))
        (fun i j k => pred_bboxes C P i j k * P.stride_tensor j)
        (fun j => ((P.anchor_points j).1 * P.stride_tensor j,
          (P.anchor_points j).2 * P.stride_tensor j))
        (gt_labels C P B) (gt_bboxes C P B) (mask_gt C P B) =
      A' (fun i j c => C.sigmoid (P.pred_scores i j c))
        (fun i j k => pred_bboxes C P i j k * P.stride_tensor j)
        (fun j => ((P.anchor_points j).1 * P.stride_tensor j,
          (P.anchor_points j).2 * P.stride_tensor j))
        (gt_labels C P B) (gt_bboxes C P B) (mask_gt C P B)) :
    assign C P B = C.assigner
        (fun i j c => C.sigmoid (P.pred_scores i j c))
        (fun i j k => pred_bboxes C P i j k * P.stride_tensor j)
        (fun j => ((P.anchor_points j).1 * P.stride_tensor j,
          (P.anchor_points j).2 * P.stride_tensor j))
        (gt_labels C P B) (gt_bboxes C P B) (mask_gt C P B) ∧
    poseCall C P B = poseCallAssigned C P B (assign C P B) ∧
    poseCall { C with assigner := A } P B =
      poseCall { C with assigner := A' } P B := by
  refine ⟨rfl, rfl, ?_⟩
  calc poseCall { C with assigner := A } P B
      = poseCallAssigned { C with assigner := A } P B
          (A (fun i j c => C.sigmoid (P.pred_scores i j c))
            (fun i j k => pred_bboxes C P i j k * P.stride_tensor j)
            (fun j => ((P.anchor_points j).1 * P.stride_tensor j,
              (P.anchor_points j).2 * P.stride_tensor j))
            (gt_labels C P B) (gt_bboxes C P B) (mask_gt C P B)) := rfl
    _ = poseCallAssigned { C with assigner := A } P B
          (A' (fun i j c => C.sigmoid (P.pred_scores i j c))
            (fun i j k => pred_bboxes C P i j k * P.stride_tensor j)
            (fun j => ((P.anchor_points j).1 * P.stride_tensor j,
              (P.anchor_points j).2 * P.stride_tensor j))
            (gt_labels C P B) (gt_bboxes C P B) (mask_gt C P B)) := by
        rw [h]
    _ = poseCall { C with assigner := A' } P B := rfl

/-- C4: in the keypoint-location loss, only keypoints whose ground-truth
visibility channel is nonzero contribute (replacing the x/y channels of
invisible keypoints — while keeping visibility channels and the rest of
the batch fixed — leaves the loss unchanged); the ground-truth keypoints
supplied to the keypoint loss are the batch keypoints with x channels
scaled by the image width and y channels by the image height, then
divided by the per-anchor stride; the keypoint mask holds exactly where
the ground-truth visibility channel is nonzero; and the normalizing area
is width times height of the assigned target box converted to xywh
form. -/
theorem kpt_loss_visibility_masked_scaled
    {b n nc dr m M nk : ℕ} (C : Ctx b n nc dr m M nk)
    (P : Preds b n nc dr nk) (B B' : Batch b m nk)
    (TA : AssignOut b n nc M)
    (hbi : B'.batch_idx = B.batch_idx)
    (hkv : ∀ (t : Fin m) (k : Fin nk),
      B'.keypoints t (chV k) = B.keypoints t (chV k))
    (hkxy : ∀ (t : Fin m) (k : Fin nk), B.keypoints t (chV k) ≠ 0 →
      B'.keypoints t (chX k) = B.keypoints t (chX k) ∧
      B'.keypoints t (chY k) = B.keypoints t (chY k)) :
    kptLocLossRaw C P B' TA = kptLocLossRaw C P B TA ∧
    (∀ (i : Fin b) (j : Fin n) (t : Fin m) (k : Fin nk),
      (imgTargets B i)[(TA.target_gt_idx i j).val]? = some t →
      gt_kpt P B TA i j (chX k) =
          B.keypoints t (chX k) * P.imgszW / P.stride_tensor j ∧
      gt_kpt P B TA i j (chY k) =
          B.keypoints t (chY k) * P.imgszH / P.stride_tensor j ∧
      gt_kpt P B TA i j (chV k) = B.keypoints t (chV k) ∧
      (kpt_mask P B TA i j k = true ↔ B.keypoints t (chV k) ≠ 0)) ∧
    (∀ (i : Fin b) (j : Fin n),
      area P TA i j =
        (target_bboxes_div P TA i j 2 - target_bboxes_div P TA i j 0) *
          (target_bboxes_div P TA i j 3 - target_bboxes_div P TA i j 1)) := by
  have himg : ∀ i, imgTargets B' i = imgTargets B i := by
    intro i
    simp [imgTargets, hbi]
  refine ⟨?_, ?_, fun i j => rfl⟩
  · have hmask : ∀ (i : Fin b) (j : Fin n),
        (fun k => kpt_mask P B' TA i j k) =
          (fun k => kpt_mask P B TA i j k) := by
      intro i j
      funext k
      cases hget : (imgTargets B i)[(TA.target_gt_idx i j).val]? with
      | none =>
          have hget' : (imgTargets B' i)[(TA.target_gt_idx i j).val]? =
              none := by rw [himg i]; exact hget
          rw [kpt_mask_none hget', kpt_mask_none hget]
      | some t =>
          have hget' : (imgTargets B' i)[(TA.target_gt_idx i j).val]? =
              some t := by rw [himg i]; exact hget
          rw [kpt_mask_some hget', kpt_mask_some hget, hkv t k]
    simp only [kptLocLossRaw, keypoint_loss]
    refine Finset.sum_congr rfl fun i _ => ?_
    by_cases hsel : (sel TA i).isEmpty = true
    · simp [hsel]
    · simp only [if_neg hsel, hmask]
      refine congrArg₂ (· * ·) rfl ?_
      refine kptMaskedSum_map_congr C.kptElem (sel TA i) _ _ _ _ _
        fun j _ k hk => ?_
      cases hget : (imgTargets B i)[(TA.target_gt_idx i j).val]? with
      | none => exact absurd hk (by simp [kpt_mask_none hget])
      | some t =>
          have hget' : (imgTargets B' i)[(TA.target_gt_idx i j).val]? =
              some t := by rw [himg i]; exact hget
          have hv : B.keypoints t (chV k) ≠ 0 := by
            rw [kpt_mask_some hget k] at hk
            exact of_decide_eq_true hk
          refine ⟨?_, ?_⟩
          · rw [(gt_kpt_some hget' k).1, (gt_kpt_some hget k).1,
              (hkxy t k hv).1]
          · rw [(gt_kpt_some hget' k).2.1, (gt_kpt_some hget k).2.1,
              (hkxy t k hv).2]
  · intro i j t k hget
    refine ⟨(gt_kpt_some hget k).1, (gt_kpt_some hget k).2.1,
      (gt_kpt_some hget k).2.2, ?_⟩
    rw [kpt_mask_some hget k]
    exact decide_eq_true_iff

/-- C5: the denominator normalizing the classification loss is
`max(target_scores.sum(), 1)`, hence at least 1 and strictly positive,
so the division is by a nonzero value (the classification loss times the
denominator recovers the BCE sum exactly); when the assigner produces
all-zero target scores the denominator is exactly 1. -/
theorem cls_denominator_at_least_one {b n nc dr m M nk : ℕ}
    (C : Ctx b n nc dr m M nk) (P : Preds b n nc dr nk)
    (TA : AssignOut b n nc M) :
    target_scores_sum TA =
      max (∑ i : Fin b, ∑ j : Fin n, ∑ c : Fin nc,
        TA.target_scores i j c) 1 ∧
    1 ≤ target_scores_sum TA ∧
    0 < target_scores_sum TA ∧
    clsLossRaw C P TA * target_scores_sum TA =
      ∑ i : Fin b, ∑ j : Fin n, ∑ c : Fin nc,
        C.bce (P.pred_scores i j c) (TA.target_scores i j c) ∧
    ((∀ i j c, TA.target_scores i j c = 0) →
      target_scores_sum TA = 1) := by
  have h1 : 1 ≤ target_scores_sum TA := le_max_right _ _
  have h0 : 0 < target_scores_sum TA := lt_of_lt_of_le one_pos h1
  refine ⟨rfl, h1, h0, ?_, ?_⟩
  · exact div_mul_cancel₀ _ (ne_of_gt h0)
  · intro hz
    simp [target_scores_sum, hz]

/-- C6: when the assigner's foreground mask selects no anchors, the box,
keypoint-location, keypoint-visibility and dfl components of the
detached loss vector returned by `PoseLoss.__call__` are all zero (only
the classification component, index 3, can be nonzero), and the assigned
target boxes are left undivided by the stride tensor. -/
theorem no_foreground_zero_components {b n nc dr m M nk : ℕ}
    (C : Ctx b n nc dr m M nk) (P : Preds b n nc dr nk)
    (B : Batch b m nk) (h : fgCount (assign C P B) = 0) :
    (poseCall C P B).2 0 = 0 ∧ (poseCall C P B).2 1 = 0 ∧
    (poseCall C P B).2 2 = 0 ∧ (poseCall C P B).2 4 = 0 ∧
    target_bboxes_final P (assign C P B) =
      (assign C P B).target_bboxes := by
  refine ⟨?_, ?_, ?_, ?_, ?_⟩
  · show (if fgCount (assign C P B) ≠ 0 then
        (bboxLossPair C P (assign C P B)).1 else 0) * C.hyp_box = 0
    simp [h]
  · show (if fgCount (assign C P B) ≠ 0 then
        kptLocLossRaw C P B (assign C P B) else 0) *
        (C.hyp_box / (b : ℚ)) = 0
    simp [h]
  · show (if fgCount (assign C P B) ≠ 0 then
        kptVisLossRaw C P B (assign C P B) else 0) *
        (C.hyp_box / (b : ℚ)) = 0
    simp [h]
  · show (if fgCount (assign C P B) ≠ 0 then
        (bboxLossPair C P (assign C P B)).2 else 0) * C.hyp_dfl = 0
    simp [h]
  · simp [target_bboxes_final, h]

/-- C8: `PoseTrainer.__init__` forces `overrides['task'] = 'pose'` (for a
`None` argument it first replaces it with an empty dict) before handing
the dict to the detection trainer's constructor, leaving every other key
unchanged, and `PoseTrainer.get_model` always constructs the `PoseModel`
with `ch = 3`, `nc = self.data['nc']`, `nkpt = self.data['nkpt']`. -/
theorem poseTrainer_sets_pose_task_and_model_args (ov : Option Dict)
    (dct : Dict) (k : String) (d : TrainerData) (cfg w : Option String)
    (v : Bool) :
    poseTrainerInit ov "task" = some "pose" ∧
    poseTrainerInit (some dct) k =
      (if k = "task" then some "pose" else dct k) ∧
    poseTrainerInit none k = (if k = "task" then some "pose" else none) ∧
    (get_model d cfg w v).args = ⟨cfg, 3, d.nc, d.nkpt, v⟩ := by
  refine ⟨?_, rfl, rfl, ?_⟩
  · cases ov <;> rfl
  · unfold get_model
    split <;> rfl

/-- C9: `PoseTrainer.get_model` loads the given weights into the model
exactly when the `weights` argument is truthy; otherwise it returns the
freshly constructed `PoseModel` with nothing loaded. -/
theorem get_model_loads_iff_truthy (d : TrainerData)
    (cfg w : Option String) (v : Bool) :
    ((get_model d cfg w v).loadedWeights).isSome = truthy w ∧
    get_model d cfg w v =
      (if truthy w then (PoseModel cfg 3 d.nc d.nkpt v).load (w.getD "")
       else PoseModel cfg 3 d.nc d.nkpt v) := by
  constructor
  · by_cases h : truthy w = true
    · simp [get_model, h, ModelState.load, PoseModel]
    · simp [get_model, h, PoseModel]
  · rfl

/-! ## Concrete instances used by the witnesses -/

/-- A concrete context with all external components instantiated. -/
def ctxW : Ctx 1 1 1 1 1 1 1 where
  hyp_box := 2
  hyp_cls := 3
  hyp_dfl := 4
  sigmoid := fun x => x / 2
  bce := fun p t => p * t
  bce_pose := fun p t =>
    (p.map (fun r => r 0)).sum + (t.map (fun r => r 0)).sum
  kptElem := fun px py gx gy a => px + py + gx + gy + a
  kptFactor := fun l => (l.length : ℚ)
  preprocess := fun t _ _ _ c => t 0 ⟨c.val, by omega⟩
  bbox_decode := fun _ d i j _ => d i j 0
  assigner := fun s _ _ _ gb mg =>
    { target_bboxes := fun i _ k => gb i 0 k
      target_scores := fun i j c => s i j c
      fg_mask := fun i _ => mg i 0
      target_gt_idx := fun _ _ => 0 }
  bbox_loss := fun _ _ _ tb ts _ _ => (tb 0 0 0, ts 0 0 0)

/-- Concrete predictions. -/
def predsW : Preds 1 1 1 1 1 where
  pred_scores := fun _ _ _ => 1/2
  pred_distri := fun _ _ _ => 1
  pred_kpts := fun _ _ c => (c.val : ℚ)
  imgszH := 4
  imgszW := 6
  anchor_points := fun _ => (1, 2)
  stride_tensor := fun _ => 2

/-- A concrete batch with one object whose single keypoint is invisible
(visibility channel 0). -/
def batchW : Batch 1 1 1 where
  batch_idx := fun _ => 0
  cls := fun _ => 0
  bboxes := fun _ k => (k.val : ℚ) + 1
  keypoints := fun _ c => if c.val = 0 then 5 else if c.val = 1 then 6 else 0

/-- Like `batchW` but with a different x coordinate for the invisible
keypoint. -/
def batchW4 : Batch 1 1 1 where
  batch_idx := fun _ => 0
  cls := fun _ => 0
  bboxes := fun _ k => (k.val : ℚ) + 1
  keypoints := fun _ c => if c.val = 0 then 7 else if c.val = 1 then 6 else 0

/-- A concrete batch whose ground-truth boxes are all zero, so the
validity mask and hence (through `ctxW.assigner`) the foreground mask
are empty. -/
def batchW0 : Batch 1 1 1 where
  batch_idx := fun _ => 0
  cls := fun _ => 0
  bboxes := fun _ _ => 0
  keypoints := fun _ _ => 1

/-- A concrete assignment with one foreground anchor. -/
def taW : AssignOut 1 1 1 1 where
  target_bboxes := fun _ _ k => (k.val : ℚ)
  target_scores := fun _ _ _ => 1/2
  fg_mask := fun _ _ => true
  target_gt_idx := fun _ _ => 0

/-- A concrete assignment producing all-zero target scores and no
foreground anchors. -/
def taZero : AssignOut 1 1 1 1 where
  target_bboxes := fun _ _ _ => 0
  target_scores := fun _ _ _ => 0
  fg_mask := fun _ _ => false
  target_gt_idx := fun _ _ => 0

/-- A concrete assigner function. -/
def afW : AssignerFn 1 1 1 1 := fun s _ _ _ gb mg =>
  { target_bboxes := fun i _ k => gb i 0 k
    target_scores := fun i j c => s i j c
    fg_mask := fun i _ => mg i 0
    target_gt_idx := fun _ _ => 0 }

/-- A second assigner that agrees with `afW` on the inputs computed by
`poseCall ctxW predsW batchW` (where the sigmoided score is 1/4) but
differs elsewhere. -/
def afW2 : AssignerFn 1 1 1 1 := fun s pb ap gl gb mg =>
  if s 0 0 0 = 1/4 then afW s pb ap gl gb mg
  else
    { target_bboxes := fun _ _ _ => 99
      target_scores := fun _ _ _ => 99
      fg_mask := fun _ _ => false
      target_gt_idx := fun _ _ => 0 }

/-- A context whose assigner ignores its inputs and selects no
foreground anchors. -/
def ctxW0 : Ctx 1 1 1 1 1 1 1 :=
  { ctxW with assigner := fun _ _ _ _ _ _ => taZero }

/-! ## Witnesses -/

/-- Witness for C2: two genuinely different assigners that agree on the
inputs the call computes give identical results. -/
theorem poseCall_targets_dynamic_from_assigner_witness :
    poseCall { ctxW with assigner := afW } predsW batchW =
      poseCall { ctxW with assigner := afW2 } predsW batchW :=
  (poseCall_targets_dynamic_from_assigner ctxW predsW batchW afW afW2
    (by
      have hc : ctxW.sigmoid (predsW.pred_scores 0 0 0) = (1/4 : ℚ) := by
        norm_num [ctxW, predsW]
      simp [afW2, hc])).2.2

/-- Witness for C4: changing the x coordinate of an invisible keypoint
(5 to 7) leaves the keypoint-location loss unchanged. -/
theorem kpt_loss_visibility_masked_scaled_witness :
    batchW4.batch_idx = batchW.batch_idx ∧
    kptLocLossRaw ctxW predsW batchW4 taW =
      kptLocLossRaw ctxW predsW batchW taW :=
  ⟨rfl, (kpt_loss_visibility_masked_scaled ctxW predsW batchW batchW4 taW
    rfl (by decide) (by decide)).1⟩

/-- Witness for C5: with all-zero target scores the denominator is
exactly 1. -/
theorem cls_denominator_at_least_one_witness :
    1 ≤ target_scores_sum taZero ∧ target_scores_sum taZero = 1 :=
  ⟨(cls_denominator_at_least_one ctxW predsW taZero).2.1,
   (cls_denominator_at_least_one ctxW predsW taZero).2.2.2.2
     (fun _ _ _ => rfl)⟩

/-- Witness for C6: with an assigner selecting no foreground anchors the
box component of the detached loss vector is zero. -/
theorem no_foreground_zero_components_witness :
    fgCount (assign ctxW0 predsW batchW0) = 0 ∧
    (poseCall ctxW0 predsW batchW0).2 0 = 0 :=
  ⟨by decide, (no_foreground_zero_components ctxW0 predsW batchW0
    (by decide)).1⟩

end PoseTrain
